import Mathlib

/-!
Shallow embedding of the hallbook booking engine (Next.js API routes over a
Supabase store) for checking the natural-language specification.

Sources embedded here:
- app/api/bookings/route.ts            (single-booking creation, overlap check)
- app/api/bookings/[id]/route.ts       (update PATCH, delete DELETE, password gate)
- app/api/bookings/series/route.ts     (series creation: the current version, the
  one whose request shape the series form posts: freq WEEKLY | FORTNIGHTLY |
  MONTHLY, occurrences, until)

Modelling conventions:
- A JavaScript Date at local midnight is a calendar day; it is embedded as a
  Nat day number (days since 0000-03-01 of the proleptic Gregorian calendar,
  the standard era-based civil-from-days correspondence). All dates reached by
  the routes lie far above 0, so Nat suffices and comparison of Date objects at
  midnight is Nat comparison of day numbers.
- Canonical times are the strings HH:MM:SS produced by the normalizers; the
  store compares time columns temporally, which on canonical fixed-width
  strings coincides with lexicographic string comparison, so the embedding
  compares canonical time strings with the string linear order.
- The Supabase query surface is embedded as pure functions over an explicit
  list of rows: eq filters are equality tests, lt and gt are order tests,
  insert appends, delete filters, update maps.
- bcrypt hash and compare are external one-way primitives; they are passed to
  the affected operations as function parameters.
-/

namespace HallBook

/-! ## Calendar arithmetic (JavaScript Date at local midnight) -/

/-- Days in a month of the proleptic Gregorian calendar. -/
def daysInMonth (y m : Nat) : Nat :=
  if m = 2 then (if (y % 4 = 0 ∧ y % 100 ≠ 0) ∨ y % 400 = 0 then 29 else 28)
  else if m = 4 ∨ m = 6 ∨ m = 9 ∨ m = 11 then 30
  else 31

/-- Day number (days since 0000-03-01) of a civil date, month 1..12, valid for
years at least 1. Standard era-based days-from-civil computation. -/
def civilToDay (y m d : Nat) : Nat :=
  let yy := if m ≤ 2 then y - 1 else y
  let era := yy / 400
  let yoe := yy % 400
  let mp := (m + 9) % 12
  let doy := (153 * mp + 2) / 5 + d - 1
  let doe := yoe * 365 + yoe / 4 - yoe / 100 + doy
  era * 146097 + doe

/-- Civil date (year, month 1..12, day 1..31) of a day number. Standard
era-based civil-from-days computation. -/
def dayToCivil (g : Nat) : Nat × Nat × Nat :=
  let era := g / 146097
  let doe := g % 146097
  let yoe := (doe - doe / 1460 + doe / 36524 - doe / 146096) / 365
  let doy := doe - (365 * yoe + yoe / 4 - yoe / 100)
  let mp := (5 * doy + 2) / 153
  let d := doy - (153 * mp + 2) / 5 + 1
  let m := if mp < 10 then mp + 3 else mp - 9
  let y := yoe + era * 400 + (if m ≤ 2 then 1 else 0)
  (y, m, d)

/-- JavaScript getDate(): the day-of-month of a day number. -/
def getDate (g : Nat) : Nat := (dayToCivil g).2.2

/-- JavaScript getDay(): weekday 0 = Sunday .. 6 = Saturday of a day number.
1970-01-01 (day number 719468) was a Thursday (4). -/
def getDayJs (g : Nat) : Nat := (g + 3) % 7

/-- JavaScript setDate(n): keep the year and month, set the day-of-month to n
with rollover, so setDate 0 is the last day of the previous month. -/
def setDate (g n : Nat) : Nat :=
  let c := dayToCivil g
  civilToDay c.1 c.2.1 1 + n - 1

/-- JavaScript setMonth(getMonth() + 1): advance to the next month keeping the
day-of-month, with rollover when the target month is shorter. -/
def setMonthNext (g : Nat) : Nat :=
  let c := dayToCivil g
  let y := if c.2.1 = 12 then c.1 + 1 else c.1
  let m := if c.2.1 = 12 then 1 else c.2.1 + 1
  civilToDay y m 1 + c.2.2 - 1

/-- Zero-padded two-digit decimal rendering, as String(x).padStart(2, "0"). -/
def pad2 (n : Nat) : String :=
  if n < 10 then "0" ++ toString n else toString n

/-- fmtDateLocal from the series route: a Date rendered as YYYY-MM-DD
(years in the supported range are four digits on their own). -/
def fmtDateLocal (g : Nat) : String :=
  let c := dayToCivil g
  toString c.1 ++ "-" ++ pad2 c.2.1 ++ "-" ++ pad2 c.2.2

/-- Strict parse of a YYYY-MM-DD string to a day number; none when the string
is not a valid ISO calendar date (new Date of an invalid ISO string is an
Invalid Date). -/
def parseDate? (s : String) : Option Nat :=
  match s.toList with
  | [y1, y2, y3, y4, h1, m1, m2, h2, d1, d2] =>
    if y1.isDigit ∧ y2.isDigit ∧ y3.isDigit ∧ y4.isDigit ∧ h1 = '-' ∧
        m1.isDigit ∧ m2.isDigit ∧ h2 = '-' ∧ d1.isDigit ∧ d2.isDigit then
      let y := ((y1.toNat - 48) * 10 + (y2.toNat - 48)) * 100 +
        ((y3.toNat - 48) * 10 + (y4.toNat - 48))
      let m := (m1.toNat - 48) * 10 + (m2.toNat - 48)
      let d := (d1.toNat - 48) * 10 + (d2.toNat - 48)
      if 1 ≤ m ∧ m ≤ 12 ∧ 1 ≤ d ∧ d ≤ daysInMonth y m then some (civilToDay y m d)
      else none
    else none
  | _ => none

/-! ## Recurrence frequency and expansion (series route) -/

/-- type Freq = "WEEKLY" | "FORTNIGHTLY" | "MONTHLY" -/
inductive Freq where
  | WEEKLY
  | FORTNIGHTLY
  | MONTHLY
deriving DecidableEq, Repr

/-- The walk-back loop of addUnit for MONTHLY:
while (nd.getDate() < dom) nd.setDate(nd.getDate() - 1).
Fuel-bounded structural recursion; 1000 steps is far beyond any walk the
source can perform (at most two months of days). -/
def clampBack : Nat → Nat → Nat → Nat
  | 0, _, g => g
  | fuel + 1, dom, g =>
    if getDate g < dom then clampBack fuel dom (setDate g (getDate g - 1))
    else g

/-- addUnit from the series route: advance one recurrence step from a date. -/
def addUnit (freq : Freq) (g : Nat) : Nat :=
  match freq with
  | .WEEKLY => g + 7
  | .FORTNIGHTLY => g + 14
  | .MONTHLY => clampBack 1000 (getDate g) (setMonthNext g)

/-- The occurrence-generation loop of the series route, producing day numbers
(the source formats each day to a string as it pushes it; formatting is pure,
see expandDates). Arguments: frequency, the until bound, current date, the
loop index i, and the remaining iteration budget maxOcc - i. -/
def expandGoDays (freq : Freq) (until? : Option Nat) : Nat → Nat → Nat → List Nat
  | _, _, 0 => []
  | cur, i, rem + 1 =>
    let next := addUnit freq cur
    if (match until? with | some u => decide (u < next) | none => false) then [cur]
    else if 500 < i then [cur]
    else cur :: expandGoDays freq until? next (i + 1) rem

/-- maxOcc from the series route: body.occurrences when positive, else 10000
when an until date is present, else the default cap 10. -/
def seriesMaxOcc (occurrences : Option Nat) (until? : Option Nat) : Nat :=
  match occurrences with
  | some n => if 0 < n then n else (match until? with | some _ => 10000 | none => 10)
  | none => match until? with | some _ => 10000 | none => 10

/-- The generated occurrence day numbers of a series request. -/
def expandDays (freq : Freq) (until? : Option Nat) (occurrences : Option Nat)
    (start : Nat) : List Nat :=
  expandGoDays freq until? start 0 (seriesMaxOcc occurrences until?)

/-- The generated occurrence dates as the YYYY-MM-DD strings the source pushes. -/
def expandDates (freq : Freq) (until? : Option Nat) (occurrences : Option Nat)
    (start : Nat) : List String :=
  (expandDays freq until? occurrences start).map fmtDateLocal

/-! ## String primitives

Character-list implementations of lexicographic comparison and trim, so that
every definition evaluates by kernel reduction. On the canonical fixed-width
time strings lexicographic order is temporal order, which is what both the
store comparisons and the JavaScript string comparisons perform. -/

/-- Lexicographic order on character lists by code point. -/
def charListLt : List Char → List Char → Bool
  | _, [] => false
  | [], _ :: _ => true
  | a :: as, b :: bs =>
    if a.toNat < b.toNat then true
    else if b.toNat < a.toNat then false
    else charListLt as bs

/-- Strict lexicographic order on strings. -/
def strLt (a b : String) : Bool := charListLt a.toList b.toList

/-- Total order complement: a is at most b exactly when b is not below a. -/
def strLe (a b : String) : Bool := !(strLt b a)

/-- trim: strip leading and trailing whitespace. -/
def trimStr (s : String) : String :=
  ⟨((s.toList.dropWhile Char.isWhitespace).reverse.dropWhile Char.isWhitespace).reverse⟩

/-! ## Data model -/

/-- A hall identifier as the routes normalize it: a JavaScript number for
all-digit inputs, otherwise a string (uuid and friends). -/
inductive HallVal where
  | num (n : Nat)
  | str (s : String)
deriving DecidableEq, Repr

/-- /^\d+$/ : nonempty and all digits. -/
def isDigits (s : String) : Bool :=
  decide (s ≠ "") && s.toList.all Char.isDigit

/-- Decimal value of an all-digit string (Number(s) for such strings). -/
def digitsToNat (s : String) : Nat :=
  s.toList.foldl (fun acc c => acc * 10 + (c.toNat - 48)) 0

/-- hall_id normalization of the single-create and series routes: a number
stays a number (String of it is all digits and Number of that is itself); an
all-digit string becomes a number; any other string stays itself. -/
def normalizeHallForDb (h : HallVal) : HallVal :=
  match h with
  | .num n => .num n
  | .str s => if isDigits s then .num (digitsToNat s) else .str s

/-- A row of the bookings table. Times are canonical HH:MM:SS strings. -/
structure Booking where
  id : String
  hall_id : HallVal
  date : String
  start_time : String
  end_time : String
  requester_name : String
  group_name : String
  phone : Option String
  description : Option String
  is_series : Bool
  series_id : Option String
  title : Option String
  applicant : Option String
  freq : Option Freq
  edit_password_hash : Option String
  edit_password_hint : Option String
deriving DecidableEq, Repr

/-- A row of the series table. -/
structure SeriesRow where
  id : String
  hall_id : HallVal
  start_date : String
  end_date : String
  start_time : String
  end_time : String
  interval : Nat
  byweekday : List Nat
  requester_name : String
  group_name : String
  phone : Option String
  description : Option String
deriving DecidableEq, Repr

/-- The durable store: the series table and the bookings table. -/
structure DbState where
  series : List SeriesRow
  bookings : List Booking
deriving DecidableEq, Repr

/-- .eq("id", id).single(): exactly one row with this id, else an error. -/
def dbSingle (db : List Booking) (id : String) : Option Booking :=
  match db.filter (fun b => decide (b.id = id)) with
  | [b] => some b
  | _ => none

/-! ## Time normalization -/

/-- Test for the HH:MM shape, the regex ^\d{2}:\d{2}$. -/
def isTimeHM (s : String) : Bool :=
  match s.toList with
  | [a, b, c, d, e] => a.isDigit && b.isDigit && decide (c = ':') && d.isDigit && e.isDigit
  | _ => false

/-- Test for the HH:MM:SS shape, the regex ^\d{2}:\d{2}:\d{2}$. -/
def isTimeHMS (s : String) : Bool :=
  match s.toList with
  | [a, b, c, d, e, f, g, h] =>
    a.isDigit && b.isDigit && decide (c = ':') && d.isDigit && e.isDigit &&
      decide (f = ':') && g.isDigit && h.isDigit
  | _ => false

/-- normTime of the single-create route and normalizeHm of the series route:
HH:MM gains a :00 seconds part, HH:MM:SS stays, anything else throws (none). -/
def normTime? (t : String) : Option String :=
  if isTimeHM t then some (t ++ ":00")
  else if isTimeHMS t then some t
  else none

/-- toMinutes of the series route: Number of the first two colon-separated
components of a canonical time, as total minutes. -/
def toMinutes (t : String) : Nat :=
  match t.toList with
  | h1 :: h2 :: _ :: m1 :: m2 :: _ =>
    ((h1.toNat - 48) * 10 + (h2.toNat - 48)) * 60 + (m1.toNat - 48) * 10 + (m2.toNat - 48)
  | _ => 0

/-! ## Overlap detection -/

/-- One row of the overlap query result set:
.eq("hall_id", hall).eq("date", date).lt("start_time", end).gt("end_time", start).
The half-open interval test: existing.start < new.end and existing.end > new.start. -/
def overlapRow (hall_id : HallVal) (date : String) (start_time end_time : String)
    (b : Booking) : Bool :=
  decide (b.hall_id = hall_id) && decide (b.date = date) &&
    strLt b.start_time end_time && strLt start_time b.end_time

/-- hasTimeOverlap of the single-create route: the count of matching rows is
positive. -/
def hasTimeOverlap (db : List Booking) (hall_id : HallVal) (date : String)
    (start_time end_time : String) : Bool :=
  db.any (overlapRow hall_id date start_time end_time)

/-- The .neq("id", excludeId) filter, applied only when excludeId is truthy
(present and nonempty). -/
def exFilter (excludeId : Option String) (b : Booking) : Bool :=
  match excludeId with
  | some ex => if ex = "" then true else decide (b.id ≠ ex)
  | none => true

/-- hasTimeOverlap of the update route: the same query with the optional
self-exclusion filter. -/
def hasTimeOverlapEx (db : List Booking) (hall_id : HallVal) (date : String)
    (start_time end_time : String) (excludeId : Option String) : Bool :=
  db.any (fun b => exFilter excludeId b && overlapRow hall_id date start_time end_time b)

/-! ## Single-booking creation: POST /api/bookings -/

/-- The destructured request body of the single-create route. A field holds
none when the JSON key is absent or null. -/
structure SingleBody where
  hall_id : Option HallVal
  date : Option String
  start_time : Option String
  end_time : Option String
  requester_name : Option String
  phone : Option String
  group_name : Option String
  description : Option String
  edit_password : Option String
  edit_password_hint : Option String
deriving Repr

/-- JavaScript truthiness test for an optional string: absent, null or the
empty string are falsy. -/
def optFalsy (v : Option String) : Bool :=
  match v with
  | none => true
  | some s => decide (s = "")

/-- JavaScript truthiness test for an optional hall value: absent, null, the
number 0 and the empty string are falsy. -/
def hallFalsy (v : Option HallVal) : Bool :=
  match v with
  | none => true
  | some (.num n) => decide (n = 0)
  | some (.str s) => decide (s = "")

/-- The distinct error returns of the single-create route, one constructor per
return site. -/
inductive SingleErr where
  /-- 400, missing required fields -/
  | missingFields
  /-- 500, normTime threw on a malformed time -/
  | badTimeFormat
  /-- 400, end not strictly after start -/
  | badOrder
  /-- 400, an overlapping booking already exists -/
  | conflict
  /-- 400, edit password shorter than 4 characters -/
  | shortPassword
deriving DecidableEq, Repr

/-- The response of the single-create route: ok carries the created row as the
route returns it (the insert is read back with select(), that is all columns). -/
inductive SingleRes where
  | ok (booking : Booking)
  | err (e : SingleErr)
deriving DecidableEq, Repr

/-- POST /api/bookings. hashFn embeds bcrypt.hash, newId the store-assigned
row id. Returns the response and the bookings table after the call; the store
itself is assumed to accept the insert (its failure path only reformats the
message). -/
def createSingle (db : List Booking) (body : SingleBody)
    (hashFn : String → String) (newId : String) : SingleRes × List Booking :=
  if hallFalsy body.hall_id || optFalsy body.date || optFalsy body.start_time ||
      optFalsy body.end_time || optFalsy body.requester_name then
    (.err .missingFields, db)
  else
    match body.hall_id, body.date, body.start_time, body.end_time, body.requester_name with
    | some h, some date, some st0, some et0, some requester =>
      match normTime? st0, normTime? et0 with
      | some startC, some endC =>
        if strLe endC startC then (.err .badOrder, db)
        else
          let hallIdValue := normalizeHallForDb h
          if hasTimeOverlap db hallIdValue date startC endC then (.err .conflict, db)
          else
            let hashed : Option (Option String) :=
              match body.edit_password with
              | some pw =>
                if pw = "" then some none
                else if pw.length < 4 then none
                else some (some (hashFn pw))
              | none => some none
            match hashed with
            | none => (.err .shortPassword, db)
            | some edit_password_hash =>
              let row : Booking := {
                id := newId
                hall_id := hallIdValue
                date := date
                start_time := startC
                end_time := endC
                requester_name := requester
                group_name := body.group_name.getD ""
                phone := some (body.phone.getD "")
                description := some (body.description.getD "")
                is_series := false
                series_id := none
                title := none
                applicant := none
                freq := none
                edit_password_hash := edit_password_hash
                edit_password_hint := body.edit_password_hint }
              (.ok row, db ++ [row])
      | _, _ => (.err .badTimeFormat, db)
    | _, _, _, _, _ => (.err .missingFields, db)

/-! ## Update: PATCH /api/bookings/[id] -/

/-- The request body of the update route: any subset of the editable fields.
none embeds an absent or JSON-null key (both behave alike downstream). -/
structure PatchBody where
  hall_id : Option HallVal
  date : Option String
  start_time : Option String
  end_time : Option String
  requester_name : Option String
  phone : Option String
  group_name : Option String
  description : Option String
deriving Repr

/-- emptyToUndef: the empty string, null and undefined all become undefined. -/
def emptyToUndef (v : Option String) : Option String :=
  match v with
  | none => none
  | some s => if s = "" then none else some s

/-- normalizeHallId of the update route: null and the empty string drop out of
the update set; numbers stay; other strings are trimmed. -/
def normalizeHallIdPatch (h : Option HallVal) : Option HallVal :=
  match h with
  | none => none
  | some (.num n) => some (.num n)
  | some (.str s) => if s = "" then none else some (.str (trimStr s))

/-- normalizeTimeToHHMMSS: null and the empty string drop out of the update
set, HH:MM gains :00, HH:MM:SS stays, anything else throws (none result). -/
def normalizeTimePatch? (t : Option String) : Option (Option String) :=
  match t with
  | none => some none
  | some s =>
    if s = "" then some none
    else if isTimeHM s then some (some (s ++ ":00"))
    else if isTimeHMS s then some (some s)
    else none

/-- The update set after stripUndefined: a field present here is written. -/
structure Updates where
  hall_id : Option HallVal
  date : Option String
  start_time : Option String
  end_time : Option String
  requester_name : Option String
  phone : Option String
  group_name : Option String
  description : Option String
deriving DecidableEq, Repr

/-- Object.keys(updates).length === 0. -/
def Updates.isEmptyU (u : Updates) : Bool :=
  decide (u.hall_id = none) && decide (u.date = none) && decide (u.start_time = none) &&
    decide (u.end_time = none) && decide (u.requester_name = none) &&
    decide (u.phone = none) && decide (u.group_name = none) && decide (u.description = none)

/-- The candidate-building step of the update route; none embeds a thrown
normalization error (caught and answered with status 400). -/
def patchUpdates? (body : PatchBody) : Option Updates :=
  match normalizeTimePatch? body.start_time, normalizeTimePatch? body.end_time with
  | some st, some et =>
    some {
      hall_id := normalizeHallIdPatch body.hall_id
      date := emptyToUndef body.date
      start_time := st
      end_time := et
      requester_name := emptyToUndef body.requester_name
      phone := emptyToUndef body.phone
      group_name := emptyToUndef body.group_name
      description := emptyToUndef body.description }
  | _, _ => none

/-- Overlaying the update set onto a row: a field present in the update set
wins, any other field keeps the stored value. -/
def applyUpdates (u : Updates) (b : Booking) : Booking :=
  { b with
    hall_id := u.hall_id.getD b.hall_id
    date := u.date.getD b.date
    start_time := u.start_time.getD b.start_time
    end_time := u.end_time.getD b.end_time
    requester_name := u.requester_name.getD b.requester_name
    phone := (u.phone.map some).getD b.phone
    group_name := u.group_name.getD b.group_name
    description := (u.description.map some).getD b.description }

/-- new Date(date + "T" + time) parses to a valid instant: for the shapes the
route can produce this is a valid ISO date with an HH:MM:SS time. -/
def jsDateTimeValid (date time : String) : Bool :=
  (parseDate? date).isSome && isTimeHMS time

/-- The distinct error returns of the update route, one constructor per return
site. -/
inductive PatchErr where
  /-- 400, empty id segment -/
  | missingId
  /-- 400, a normalizer threw on a malformed field -/
  | badBody
  /-- 400, nothing left to update -/
  | noFields
  /-- 400, the current-row read did not return exactly one row -/
  | readFail
  /-- 400, the effective date and times do not form valid instants -/
  | badTimes
  /-- 400, effective end not strictly after effective start -/
  | badOrder
  /-- 400, an overlapping booking (other than this row) exists -/
  | conflict
deriving DecidableEq, Repr

/-- The response of the update route. -/
inductive PatchRes where
  | ok (booking : Booking)
  | err (e : PatchErr)
deriving DecidableEq, Repr

/-- PATCH /api/bookings/[id]. Returns the response and the bookings table
after the call. -/
def patchRoute (db : List Booking) (id : String) (body : PatchBody) :
    PatchRes × List Booking :=
  let tid := trimStr id
  if tid = "" then (.err .missingId, db)
  else
    match patchUpdates? body with
    | none => (.err .badBody, db)
    | some u =>
      if u.isEmptyU then (.err .noFields, db)
      else
        match dbSingle db tid with
        | none => (.err .readFail, db)
        | some ex =>
          let effHall := u.hall_id.getD ex.hall_id
          let effDate := u.date.getD ex.date
          let effStart := u.start_time.getD ex.start_time
          let effEnd := u.end_time.getD ex.end_time
          let ordered : Option PatchErr :=
            if effStart = "" || effEnd = "" then none
            else if jsDateTimeValid effDate effStart && jsDateTimeValid effDate effEnd then
              if strLe effEnd effStart then some .badOrder else none
            else some .badTimes
          match ordered with
          | some e => (.err e, db)
          | none =>
            if hasTimeOverlapEx db effHall effDate effStart effEnd (some tid) then
              (.err .conflict, db)
            else
              (.ok (applyUpdates u ex),
                db.map (fun b => if b.id = tid then applyUpdates u b else b))

/-! ## Delete: DELETE /api/bookings/[id] -/

/-- The distinct error returns of the delete route. The first four surface
with status 403 (the password gate), the last two with status 400. -/
inductive DelErr where
  /-- 400, empty id segment -/
  | missingId
  /-- 403, no password supplied -/
  | needPassword
  /-- 403, the booking was not found while verifying -/
  | notFoundPw
  /-- 403, the row stores no password hash: the route refuses and asks for an
  administrator -/
  | notProtected
  /-- 403, the supplied password does not match the stored hash -/
  | wrongPassword
  /-- 400, series-mode read did not return exactly one row -/
  | readFail
  /-- 400, series-mode delete on a row without a series reference -/
  | notASeries
deriving DecidableEq, Repr

/-- The response of the delete route. -/
inductive DelRes where
  | okSingle
  | okSeries
  | err (e : DelErr)
deriving DecidableEq, Repr

/-- verifyBookingPassword: requires a nonempty password string, a readable
row, a stored hash, and a bcrypt match; cmp embeds bcrypt.compare. -/
def verifyBookingPassword (db : List Booking) (bookingId : String)
    (edit_password : Option String) (cmp : String → String → Bool) : Option DelErr :=
  match edit_password with
  | none => some .needPassword
  | some pw =>
    if pw = "" then some .needPassword
    else
      match dbSingle db bookingId with
      | none => some .notFoundPw
      | some booking =>
        match booking.edit_password_hash with
        | none => some .notProtected
        | some h => if cmp pw h then none else some .wrongPassword

/-- DELETE /api/bookings/[id] (single mode unless the query says
mode=series). Returns the response and the bookings table after the call. -/
def deleteRoute (db : List Booking) (id : String) (mode : Option String)
    (edit_password : Option String) (cmp : String → String → Bool) :
    DelRes × List Booking :=
  let tid := trimStr id
  if tid = "" then (.err .missingId, db)
  else
    match verifyBookingPassword db tid edit_password cmp with
    | some e => (.err e, db)
    | none =>
      if mode = some "series" then
        match dbSingle db tid with
        | none => (.err .readFail, db)
        | some row =>
          match row.series_id with
          | none => (.err .notASeries, db)
          | some sid =>
            (.okSeries, db.filter (fun b => decide (b.series_id ≠ some sid)))
      else
        (.okSingle, db.filter (fun b => decide (b.id ≠ tid)))

/-! ## Series creation: POST /api/bookings/series -/

/-- The request body of the series route (the shape the series form posts). -/
structure SeriesBody where
  hall_id : Option HallVal
  start_date : Option String
  start_time : Option String
  end_time : Option String
  title : Option String
  group_name : Option String
  applicant : Option String
  phone : Option String
  description : Option String
  freq : Option Freq
  occurrences : Option Nat
  untilS : Option String
deriving Repr

/-- The distinct error returns of the series route. -/
inductive SeriesErr where
  /-- 400, a required field is null or blank -/
  | missingRequired
  /-- 400, neither title nor group_name gives a group name -/
  | missingGroupName
  /-- 500, normalizeHm threw on a malformed time -/
  | badTimeFormat
  /-- 400, end time not strictly after start time (by minutes) -/
  | badOrder
  /-- 400, start_date does not parse -/
  | invalidStartDate
  /-- 400, until does not parse -/
  | invalidUntil
  /-- 400, the referenced hall does not exist -/
  | invalidHall
  /-- 400, the expansion generated no dates -/
  | noOccurrences
  /-- 400, the child bulk insert was refused by the store (the parent row has
  already been inserted at this point) -/
  | bookingsInsertFailed
deriving DecidableEq, Repr

/-- The values the series route has computed once validation is over. -/
structure SeriesValidated where
  hallId : HallVal
  groupName : String
  requesterName : String
  start_time : String
  end_time : String
  startDay : Nat
  untilDay : Option Nat
  freq : Freq
  occurrences : Option Nat
  phone : Option String
  description : Option String
  title : Option String
  applicant : Option String
deriving DecidableEq, Repr

/-- required-field presence as the route tests it: null, or blank after
String conversion and trim (a number never renders blank). -/
def seriesFieldMissing (v : Option String) : Bool :=
  match v with
  | none => true
  | some s => decide (trimStr s = "")

/-- The validation prefix of the series route (steps 1 to the hall-existence
check), in source order. -/
def seriesValidate (halls : List HallVal) (body : SeriesBody) :
    Except SeriesErr SeriesValidated :=
  let hallMissing :=
    match body.hall_id with
    | none => true
    | some (.num _) => false
    | some (.str s) => decide (trimStr s = "")
  if hallMissing || seriesFieldMissing body.start_date ||
      seriesFieldMissing body.start_time || seriesFieldMissing body.end_time ||
      decide (body.freq = none) then
    .error .missingRequired
  else
    let groupName := trimStr (match body.title with
      | some t => t
      | none => body.group_name.getD "")
    if groupName = "" then .error .missingGroupName
    else
      let requesterName := trimStr (body.applicant.getD "")
      match normTime? (body.start_time.getD ""), normTime? (body.end_time.getD "") with
      | some startC, some endC =>
        if toMinutes endC ≤ toMinutes startC then .error .badOrder
        else
          match parseDate? (body.start_date.getD "") with
          | none => .error .invalidStartDate
          | some startDay =>
            let untilParsed : Except SeriesErr (Option Nat) :=
              match body.untilS with
              | none => .ok none
              | some s =>
                if s = "" then .ok none
                else match parseDate? s with
                  | some u => .ok (some u)
                  | none => .error .invalidUntil
            match untilParsed with
            | .error e => .error e
            | .ok untilDay =>
              match body.hall_id, body.freq with
              | some h, some f =>
                let hallId := normalizeHallForDb h
                if halls.any (fun x => decide (x = hallId)) then
                  .ok {
                    hallId := hallId
                    groupName := groupName
                    requesterName := requesterName
                    start_time := startC
                    end_time := endC
                    startDay := startDay
                    untilDay := untilDay
                    freq := f
                    occurrences := body.occurrences
                    phone := body.phone
                    description := body.description
                    title := body.title
                    applicant := body.applicant }
                else .error .invalidHall
              | _, _ => .error .missingRequired
      | _, _ => .error .badTimeFormat

/-- The parent series row the route inserts: first and last generated date,
the weekdays realized by the generated dates (deduplicated, ascending), and
interval 2 exactly for FORTNIGHTLY. -/
def seriesParentRow (v : SeriesValidated) (days : List Nat) (newSid : String) :
    SeriesRow :=
  let dates := days.map fmtDateLocal
  { id := newSid
    hall_id := v.hallId
    start_date := dates.headD ""
    end_date := dates.getLastD ""
    start_time := v.start_time
    end_time := v.end_time
    interval := if v.freq = .FORTNIGHTLY then 2 else 1
    byweekday := (List.range 7).filter (fun w => days.any (fun g => decide (getDayJs g = w)))
    requester_name := v.requesterName
    group_name := v.groupName
    phone := v.phone
    description := v.description }

/-- One child booking row per generated date, carrying the parent reference. -/
def seriesChildRows (v : SeriesValidated) (days : List Nat) (newSid : String) :
    List Booking :=
  days.map (fun g =>
    { id := ""
      hall_id := v.hallId
      date := fmtDateLocal g
      start_time := v.start_time
      end_time := v.end_time
      requester_name := v.requesterName
      group_name := v.groupName
      phone := v.phone
      description := v.description
      is_series := true
      series_id := some newSid
      title := v.title
      applicant := v.applicant
      freq := some v.freq
      edit_password_hash := none
      edit_password_hint := none })

/-- The response of the series route: ok carries the new series id and the
count of inserted child rows. -/
inductive SeriesRes where
  | ok (series_id : String) (count : Nat)
  | err (e : SeriesErr)
deriving DecidableEq, Repr

/-- POST /api/bookings/series. After validation the route expands the
occurrence dates, inserts the parent series row, then bulk-inserts the child
rows — with no overlap check and no transaction around the two inserts.
bulkInsertFails embeds the store refusing the child bulk insert (its answer
is returned as an error after the parent insert has already been committed);
newSid is the store-assigned parent id. -/
def createSeries (st : DbState) (halls : List HallVal) (body : SeriesBody)
    (bulkInsertFails : Bool) (newSid : String) : SeriesRes × DbState :=
  match seriesValidate halls body with
  | .error e => (.err e, st)
  | .ok v =>
    let days := expandDays v.freq v.untilDay v.occurrences v.startDay
    if days.isEmpty then (.err .noOccurrences, st)
    else
      let st1 : DbState := { st with series := st.series ++ [seriesParentRow v days newSid] }
      if bulkInsertFails then (.err .bookingsInsertFailed, st1)
      else
        let rows := seriesChildRows v days newSid
        (.ok newSid rows.length, { st1 with bookings := st1.bookings ++ rows })

/-! ## Concrete fixtures used by the claim theorems and witnesses -/

/-- A stand-in for the bcrypt hash primitive in concrete runs. -/
def testHash (s : String) : String := "h:" ++ s

/-- The matching stand-in for bcrypt.compare. -/
def cmpTest (p h : String) : Bool := decide (testHash p = h)

/-- A plain stored booking row. -/
def sampleBooking (id : String) (h : HallVal) (d st et : String) : Booking :=
  { id := id
    hall_id := h
    date := d
    start_time := st
    end_time := et
    requester_name := "r"
    group_name := "g"
    phone := none
    description := none
    is_series := false
    series_id := none
    title := none
    applicant := none
    freq := none
    edit_password_hash := none
    edit_password_hint := none }

/-- One existing booking: hall 1, 2025-03-01, 09:00-10:00. -/
def dbMarch : List Booking :=
  [sampleBooking "b1" (.num 1) "2025-03-01" "09:00:00" "10:00:00"]

/-- A single-create request for hall 1, 2025-03-01, at the given times. -/
def reqMarch (st et : String) : SingleBody :=
  { hall_id := some (.num 1)
    date := some "2025-03-01"
    start_time := some st
    end_time := some et
    requester_name := some "kim"
    phone := none
    group_name := none
    description := none
    edit_password := none
    edit_password_hint := none }

/-- A single-create request carrying an edit password and a hint. -/
def bodyPw : SingleBody :=
  { reqMarch "09:30" "10:30" with
    date := some "2025-04-01"
    edit_password := some "abcd"
    edit_password_hint := some "hint" }

/-- The ok-payload of a single-create response, if any. -/
def resBooking : SingleRes → Option Booking
  | .ok b => some b
  | .err _ => none

/-- A series request: hall 1, start 2025-03-01, 09:30-10:30, WEEKLY, one
occurrence. -/
def sbodySample : SeriesBody :=
  { hall_id := some (.num 1)
    start_date := some "2025-03-01"
    start_time := some "09:30"
    end_time := some "10:30"
    title := some "club"
    group_name := none
    applicant := some "kim"
    phone := none
    description := none
    freq := some .WEEKLY
    occurrences := some 1
    untilS := none }

/-- What seriesValidate computes for sbodySample. -/
def sValidSample : SeriesValidated :=
  { hallId := .num 1
    groupName := "club"
    requesterName := "kim"
    start_time := "09:30:00"
    end_time := "10:30:00"
    startDay := civilToDay 2025 3 1
    untilDay := none
    freq := .WEEKLY
    occurrences := some 1
    phone := none
    description := none
    title := some "club"
    applicant := some "kim" }

/-- The stored booking of dbMarch protected by the hash of abcd. -/
def dbHash : List Booking :=
  [{ sampleBooking "b1" (.num 1) "2025-03-01" "09:00:00" "10:00:00" with
      edit_password_hash := some (testHash "abcd") }]

/-- Two bookings on the same date and overlapping times but different halls. -/
def dbTwoHalls : List Booking :=
  [sampleBooking "b1" (.num 1) "2025-03-01" "09:00:00" "10:00:00",
   sampleBooking "b2" (.num 2) "2025-03-01" "09:30:00" "10:30:00"]

/-- A patch that changes only the hall (to hall 2). -/
def pbodyHallOnly : PatchBody :=
  { hall_id := some (.num 2)
    date := none
    start_time := none
    end_time := none
    requester_name := none
    phone := none
    group_name := none
    description := none }

/-- A patch whose supplied fields are all empty strings. -/
def pbodyAllEmpty : PatchBody :=
  { hall_id := some (.str "")
    date := some ""
    start_time := some ""
    end_time := some ""
    requester_name := some ""
    phone := some ""
    group_name := some ""
    description := some "" }

/-- A patch with a real date change next to empty-string fields. -/
def pbodyKeep : PatchBody :=
  { hall_id := none
    date := some "2025-03-02"
    start_time := none
    end_time := none
    requester_name := some ""
    phone := some ""
    group_name := none
    description := none }

/-- The update set pbodyKeep produces: only the date survives. -/
def uKeep : Updates :=
  { hall_id := none
    date := some "2025-03-02"
    start_time := none
    end_time := none
    requester_name := none
    phone := none
    group_name := none
    description := none }

/-- The row of dbTwoHalls targeted by the patch witnesses. -/
def rowB1 : Booking := sampleBooking "b1" (.num 1) "2025-03-01" "09:00:00" "10:00:00"

/-- The row after applying pbodyKeep. -/
def rowKeep : Booking := applyUpdates uKeep rowB1

/-- The bookings table after patching rowB1 with pbodyKeep. -/
def dbKeepAfter : List Booking :=
  [rowKeep, sampleBooking "b2" (.num 2) "2025-03-01" "09:30:00" "10:30:00"]

/-- The day numbers sbodySample expands to (a single occurrence). -/
def daysSample : List Nat := expandDays .WEEKLY none (some 1) (civilToDay 2025 3 1)

/-- The store state after a successful sbodySample series creation from an
empty store. -/
def st2Sample : DbState :=
  { series := [seriesParentRow sValidSample daysSample "s1"]
    bookings := seriesChildRows sValidSample daysSample "s1" }

/-- All fields of an update request are supplied empty or not at all. -/
abbrev bodyAllEmpty (body : PatchBody) : Prop :=
  (body.hall_id = none ∨ body.hall_id = some (.str "")) ∧
  (body.date = none ∨ body.date = some "") ∧
  (body.start_time = none ∨ body.start_time = some "") ∧
  (body.end_time = none ∨ body.end_time = some "") ∧
  (body.requester_name = none ∨ body.requester_name = some "") ∧
  (body.phone = none ∨ body.phone = some "") ∧
  (body.group_name = none ∨ body.group_name = some "") ∧
  (body.description = none ∨ body.description = some "")

/-! ## Helper lemmas -/

/-- The overlap query answers positively exactly when some stored row on the
same hall and date has a half-open interval meeting the candidate interval. -/
theorem hasTimeOverlap_iff_exists (db : List Booking) (hall : HallVal)
    (date st et : String) :
    hasTimeOverlap db hall date st et = true ↔
      ∃ b ∈ db, b.hall_id = hall ∧ b.date = date ∧
        strLt b.start_time et = true ∧ strLt st b.end_time = true := by
  simp [hasTimeOverlap, overlapRow, List.any_eq_true, Bool.and_eq_true,
    decide_eq_true_eq, and_assoc]

/-- The self-excluding overlap query, for a nonempty exclusion id. -/
theorem hasTimeOverlapEx_some_iff (db : List Booking) (hall : HallVal)
    (date st et ex : String) (hne : ex ≠ "") :
    hasTimeOverlapEx db hall date st et (some ex) = true ↔
      ∃ b ∈ db, b.id ≠ ex ∧ b.hall_id = hall ∧ b.date = date ∧
        strLt b.start_time et = true ∧ strLt st b.end_time = true := by
  simp [hasTimeOverlapEx, exFilter, overlapRow, hne, List.any_eq_true,
    Bool.and_eq_true, decide_eq_true_eq, and_assoc]

/-- Once the monthly step fixes a date below the until bound, the generation
loop only replays that date, stopping at the index-501 safety break. -/
theorem expandGo_monthly_fix (u cur : Nat) (hfix : addUnit .MONTHLY cur = cur)
    (hle : ¬ u < cur) :
    ∀ rem i, i ≤ 501 →
      expandGoDays .MONTHLY (some u) cur i rem = List.replicate (min rem (502 - i)) cur := by
  intro rem
  induction rem with
  | zero => intro i _; simp [expandGoDays]
  | succ rem ih =>
    intro i hi
    simp only [expandGoDays, hfix, hle, decide_eq_true_eq, if_false]
    by_cases hbreak : 500 < i
    · have h501 : i = 501 := by omega
      have hmin : min (rem + 1) (502 - i) = 1 := by omega
      simp [hbreak, h501, hmin, hle, List.replicate]
    · have harith : min (rem + 1) (502 - i) = min rem (502 - (i + 1)) + 1 := by omega
      simp only [hbreak, if_false, hle, decide_eq_true_eq, if_neg, not_false_eq_true]
      rw [ih (i + 1) (by omega), harith, List.replicate_succ]

/-- With no until bound, the generation loop emits one date per unit of
budget as long as the safety break stays out of reach. -/
theorem expandGoDays_len_no_until (f : Freq) :
    ∀ rem i cur, i + rem ≤ 501 →
      (expandGoDays f none cur i rem).length = rem := by
  intro rem
  induction rem with
  | zero => intro i cur _; simp [expandGoDays]
  | succ rem ih =>
    intro i cur h
    have hbreak : ¬ 500 < i := by omega
    simp only [expandGoDays, hbreak, if_false]
    simp [ih (i + 1) (addUnit f cur) (by omega)]

/-- Every date the loop generates keeps the weekday of the date it grows
from, whenever one recurrence step preserves the weekday. -/
theorem expandGoDays_weekday_inv (f : Freq) (u : Option Nat)
    (hstep : ∀ c, getDayJs (addUnit f c) = getDayJs c) :
    ∀ rem i cur g, g ∈ expandGoDays f u cur i rem → getDayJs g = getDayJs cur := by
  intro rem
  induction rem with
  | zero => intro i cur g hg; simp [expandGoDays] at hg
  | succ rem ih =>
    intro i cur g hg
    simp only [expandGoDays] at hg
    split at hg
    · simp at hg; simp [hg]
    · split at hg
      · simp at hg; simp [hg]
      · rcases List.mem_cons.mp hg with h | h
        · simp [h]
        · rw [ih (i + 1) (addUnit f cur) g h, hstep]

/-- A string of the HH:MM:SS shape is nonempty. -/
theorem isTimeHMS_ne_empty {s : String} (h : isTimeHMS s = true) : s ≠ "" := by
  rintro rfl
  simp [isTimeHMS] at h

/-- Fields supplied empty or not at all are dropped by emptyToUndef. -/
theorem emptyToUndef_none {v : Option String} (h : v = none ∨ v = some "") :
    emptyToUndef v = none := by
  rcases h with rfl | rfl <;> rfl

/-- Time fields supplied empty or not at all are dropped by the time
normalizer without an error. -/
theorem normalizeTimePatch_none {v : Option String} (h : v = none ∨ v = some "") :
    normalizeTimePatch? v = some none := by
  rcases h with rfl | rfl <;> rfl

/-- A hall field supplied empty or not at all is dropped by the hall
normalizer. -/
theorem normalizeHallIdPatch_none {v : Option HallVal}
    (h : v = none ∨ v = some (.str "")) : normalizeHallIdPatch v = none := by
  rcases h with rfl | rfl <;> rfl

/-- What a successful candidate-building step says about each update field. -/
theorem patchUpdates_fields {body : PatchBody} {u : Updates}
    (hu : patchUpdates? body = some u) :
    u.hall_id = normalizeHallIdPatch body.hall_id ∧
    u.date = emptyToUndef body.date ∧
    normalizeTimePatch? body.start_time = some u.start_time ∧
    normalizeTimePatch? body.end_time = some u.end_time ∧
    u.requester_name = emptyToUndef body.requester_name ∧
    u.phone = emptyToUndef body.phone ∧
    u.group_name = emptyToUndef body.group_name ∧
    u.description = emptyToUndef body.description := by
  unfold patchUpdates? at hu
  split at hu
  · rename_i st et hst het
    injection hu with hu
    subst hu
    refine ⟨rfl, rfl, ?_, ?_, rfl, rfl, rfl, rfl⟩
    · rw [hst]
    · rw [het]
  · cases hu

/-- A single-row read pins down every stored row bearing that id. -/
theorem dbSingle_unique {db : List Booking} {tid : String} {ex : Booking}
    (h : dbSingle db tid = some ex) :
    ∀ a ∈ db, a.id = tid → a = ex := by
  intro a ha haid
  unfold dbSingle at h
  split at h
  · rename_i b hfil
    injection h with h
    subst h
    have : a ∈ db.filter (fun x => decide (x.id = tid)) :=
      List.mem_filter.mpr ⟨ha, by simp [haid]⟩
    rw [hfil] at this
    simpa using this
  · cases h

/-- Inversion of a successful update: the candidate build succeeded, the
current row was read, and the result overlays the update set on it. -/
theorem patchRoute_ok_inv {db : List Booking} {id : String} {body : PatchBody}
    {r : Booking} {db2 : List Booking}
    (h : patchRoute db id body = (.ok r, db2)) :
    ∃ u ex, patchUpdates? body = some u ∧ dbSingle db (trimStr id) = some ex ∧
      r = applyUpdates u ex ∧
      db2 = db.map (fun b => if b.id = trimStr id then applyUpdates u b else b) := by
  by_cases h0 : trimStr id = ""
  · simp [patchRoute, h0] at h
  simp only [patchRoute, h0, if_false] at h
  split at h
  · simp at h
  rename_i u hu
  split at h
  · simp at h
  split at h
  · simp at h
  rename_i ex hex
  split at h
  · simp at h
  split at h
  · simp at h
  · simp only [Prod.mk.injEq] at h
    obtain ⟨h1, h2⟩ := h
    injection h1 with h1
    exact ⟨u, ex, hu, hex, h1.symm, h2.symm⟩

/-- One weekly step is seven days and keeps the weekday. -/
theorem addUnit_weekly_weekday (c : Nat) :
    getDayJs (addUnit .WEEKLY c) = getDayJs c := by
  simp [addUnit, getDayJs]
  omega

/-- One fortnightly step is fourteen days and keeps the weekday. -/
theorem addUnit_fortnightly_weekday (c : Nat) :
    getDayJs (addUnit .FORTNIGHTLY c) = getDayJs c := by
  simp [addUnit, getDayJs]
  omega

/-! ## Claim theorems -/

/-- C1: the claim says series creation runs the overlap check once per
generated date and aborts with ConflictError writing nothing when any date
conflicts. The code runs no overlap check at all: with an existing booking on
hall 1, 2025-03-01, 09:00-10:00, a series request for hall 1, 2025-03-01,
09:30-10:30 (WEEKLY, one occurrence) generates a conflicting date, yet the
route reports success and persists both the parent row and the conflicting
child row. -/
theorem claim_C1_series_inserts_despite_conflict :
    hasTimeOverlap dbMarch (.num 1) "2025-03-01" "09:30:00" "10:30:00" = true ∧
    (createSeries ⟨[], dbMarch⟩ [.num 1] sbodySample false "s1").1 = .ok "s1" 1 ∧
    ((createSeries ⟨[], dbMarch⟩ [.num 1] sbodySample false "s1").2).bookings.length = 2 ∧
    ((createSeries ⟨[], dbMarch⟩ [.num 1] sbodySample false "s1").2).series.length = 1 := by
  refine ⟨by decide, by decide, by decide, by decide⟩

/-- C2: the claim says monthly expansion from 2025-01-31 until 2025-04-30
steps one calendar month at a time and clamps short months, yielding
[2025-01-31, 2025-02-28, 2025-03-31, 2025-04-30]. In the code the walk-back
loop of the monthly step keeps decrementing past the clamped day (the 28th is
still below the anchor 31) until it lands back on the anchor date itself, so
the step returns its input and the expansion emits 502 copies of 2025-01-31
(until the index-501 safety break). -/
theorem claim_C2_monthly_clamp_short_circuits :
    addUnit .MONTHLY (civilToDay 2025 1 31) = civilToDay 2025 1 31 ∧
    expandDates .MONTHLY (some (civilToDay 2025 4 30)) none (civilToDay 2025 1 31)
      = List.replicate 502 "2025-01-31" ∧
    expandDates .MONTHLY (some (civilToDay 2025 4 30)) none (civilToDay 2025 1 31)
      ≠ ["2025-01-31", "2025-02-28", "2025-03-31", "2025-04-30"] := by
  have hfix : addUnit .MONTHLY (civilToDay 2025 1 31) = civilToDay 2025 1 31 := by decide
  have hrep : expandDates .MONTHLY (some (civilToDay 2025 4 30)) none (civilToDay 2025 1 31)
      = List.replicate 502 "2025-01-31" := by
    have hle : ¬ civilToDay 2025 4 30 < civilToDay 2025 1 31 := by decide
    have hfmt : fmtDateLocal (civilToDay 2025 1 31) = "2025-01-31" := by decide
    rw [expandDates, expandDays]
    have hmax : seriesMaxOcc none (some (civilToDay 2025 4 30)) = 10000 := rfl
    rw [hmax, expandGo_monthly_fix (civilToDay 2025 4 30) (civilToDay 2025 1 31) hfix hle
      10000 0 (by omega)]
    have hmin : min 10000 (502 - 0) = 502 := by omega
    rw [hmin, List.map_replicate, hfmt]
  refine ⟨hfix, hrep, ?_⟩
  rw [hrep]
  intro h
  have h2 := congrArg List.length h
  simp only [List.length_replicate, List.length_cons, List.length_nil] at h2
  omega

/-- C4: the claim (and the comment in the code above the return) says the
create response never contains the stored secret hash. The route reads the
inserted row back with select(), which returns every column: creating a
booking with edit password abcd yields a response whose booking carries
edit_password_hash equal to the stored bcrypt hash of abcd. -/
theorem claim_C4_response_carries_hash :
    ((resBooking (createSingle [] bodyPw testHash "b2").1).bind Booking.edit_password_hash)
      = some (testHash "abcd") ∧
    ((resBooking (createSingle [] bodyPw testHash "b2").1).bind Booking.edit_password_hint)
      = some "hint" := by
  refine ⟨by decide, by decide⟩

/-- C3 counterexample: the claim says a booking whose stored hash is absent
is deletable with no secret supplied. On the code, deleting the hashless
booking b1 with no secret is rejected with 403 (password required), with a
secret it is rejected with 403 (row not password-protected), and in both
cases the row stays in the table. -/
theorem claim_C3_counterexample :
    (deleteRoute dbMarch "b1" none none cmpTest).1 = .err .needPassword ∧
    (deleteRoute dbMarch "b1" none (some "x") cmpTest).1 = .err .notProtected ∧
    (deleteRoute dbMarch "b1" none none cmpTest).2 = dbMarch ∧
    (deleteRoute dbMarch "b1" none (some "x") cmpTest).2 = dbMarch := by
  refine ⟨by decide, by decide, by decide, by decide⟩

/-- C5 counterexample: the claim says the parent insert and the child inserts
are atomic as one unit, a failure after the parent insert never leaving an
orphaned parent. The code issues two separate inserts with no transaction:
when the store refuses the child bulk insert of a valid series request, the
route reports the insert error while the parent series row is already
persisted and zero child rows exist. -/
theorem claim_C5_counterexample :
    (createSeries ⟨[], []⟩ [.num 1] sbodySample true "s1").1 = .err .bookingsInsertFailed ∧
    ((createSeries ⟨[], []⟩ [.num 1] sbodySample true "s1").2).series.length = 1 ∧
    ((createSeries ⟨[], []⟩ [.num 1] sbodySample true "s1").2).bookings = [] := by
  refine ⟨by decide, by decide, by decide⟩

/-- C6 counterexample: the claim says a WEEKLY expansion from Monday
2025-01-06 with weekday set 1 and 3 and occurrence count 4 yields dates
alternating Monday and Wednesday. The expansion accepts no weekday set at
all and steps seven days at a time: the generated dates are four consecutive
Mondays, not the claimed alternating sequence, and the second date
2025-01-13 falls on weekday 1, not on a Wednesday. -/
theorem claim_C6_counterexample :
    expandDates .WEEKLY none (some 4) (civilToDay 2025 1 6)
      = ["2025-01-06", "2025-01-13", "2025-01-20", "2025-01-27"] ∧
    expandDates .WEEKLY none (some 4) (civilToDay 2025 1 6)
      ≠ ["2025-01-06", "2025-01-08", "2025-01-13", "2025-01-15"] ∧
    getDayJs (civilToDay 2025 1 13) = 1 := by
  refine ⟨by decide, by decide, by decide⟩

/-- C6 as amended: the series route accepts no weekday set; WEEKLY advances
exactly seven days per occurrence and FORTNIGHTLY fourteen, so every
generated date falls on the start date weekday, and the expansion from
Monday 2025-01-06 with occurrence count 4 yields the four strictly
increasing Mondays 2025-01-06, 01-13, 01-20, 01-27. -/
theorem claim_C6_amended :
    expandDates .WEEKLY none (some 4) (civilToDay 2025 1 6)
      = ["2025-01-06", "2025-01-13", "2025-01-20", "2025-01-27"] ∧
    (∀ (u occ : Option Nat) (start : Nat),
      (expandDays .WEEKLY u occ start).all
        (fun g => decide (getDayJs g = getDayJs start)) = true) ∧
    (∀ (u occ : Option Nat) (start : Nat),
      (expandDays .FORTNIGHTLY u occ start).all
        (fun g => decide (getDayJs g = getDayJs start)) = true) := by
  refine ⟨by decide, ?_, ?_⟩
  · intro u occ start
    rw [List.all_eq_true]
    intro g hg
    simpa using expandGoDays_weekday_inv .WEEKLY u addUnit_weekly_weekday _ _ _ g hg
  · intro u occ start
    rw [List.all_eq_true]
    intro g hg
    simpa using expandGoDays_weekday_inv .FORTNIGHTLY u addUnit_fortnightly_weekday _ _ _ g hg

/-- C9: when the request carries neither an until date nor an occurrence
count, maxOcc falls back to the default cap 10 and the expansion emits
exactly ten occurrence dates, for every frequency and start date. -/
theorem claim_C9_default_cap (f : Freq) (start : Nat) :
    (expandDates f none none start).length = 10 := by
  rw [expandDates, List.length_map, expandDays]
  exact expandGoDays_len_no_until f 10 0 start (by omega)

/-- C8: the overlap query is the half-open interval test — it answers
positively exactly when a stored row on the same hall and date satisfies
existing.start below new.end and existing.end above new.start — and on the
concrete scenario with an existing booking hall 1, 2025-03-01, 09:00-10:00,
a single-create for 09:30-10:30 is rejected with the conflict error leaving
the table unchanged, while 10:00-11:00 (touching edge) is created. -/
theorem claim_C8_half_open_overlap :
    (∀ (db : List Booking) (hall : HallVal) (date st et : String),
      hasTimeOverlap db hall date st et = true ↔
        ∃ b ∈ db, b.hall_id = hall ∧ b.date = date ∧
          strLt b.start_time et = true ∧ strLt st b.end_time = true) ∧
    (createSingle dbMarch (reqMarch "09:30" "10:30") testHash "b2").1 = .err .conflict ∧
    (createSingle dbMarch (reqMarch "09:30" "10:30") testHash "b2").2 = dbMarch ∧
    (resBooking (createSingle dbMarch (reqMarch "10:00" "11:00") testHash "b2").1).isSome
      = true ∧
    ((createSingle dbMarch (reqMarch "10:00" "11:00") testHash "b2").2).length = 2 :=
  ⟨hasTimeOverlap_iff_exists, by decide, by decide, by decide, by decide⟩

/-- C7: for an update whose candidate build succeeds with a nonempty update
set, whose target row reads back, and whose effective (overlay) state forms
valid instants in the right order, the route answers the conflict error and
leaves the table untouched exactly when some other stored row overlaps the
effective hall, date and interval — the overlay taking each patched field
and falling back to the stored value for the rest, so a hall-only patch is
checked against the new hall. -/
theorem claim_C7_overlap_on_effective_state (db : List Booking) (id : String)
    (body : PatchBody) (u : Updates) (ex : Booking)
    (htrim : trimStr id = id) (hne : id ≠ "")
    (hu : patchUpdates? body = some u)
    (hnemp : u.isEmptyU = false)
    (hex : dbSingle db id = some ex)
    (hv1 : jsDateTimeValid (u.date.getD ex.date) (u.start_time.getD ex.start_time) = true)
    (hv2 : jsDateTimeValid (u.date.getD ex.date) (u.end_time.getD ex.end_time) = true)
    (hord : strLe (u.end_time.getD ex.end_time) (u.start_time.getD ex.start_time) = false) :
    ((patchRoute db id body).1 = .err .conflict ∧ (patchRoute db id body).2 = db) ↔
      ∃ b ∈ db, b.id ≠ id ∧ b.hall_id = u.hall_id.getD ex.hall_id ∧
        b.date = u.date.getD ex.date ∧
        strLt b.start_time (u.end_time.getD ex.end_time) = true ∧
        strLt (u.start_time.getD ex.start_time) b.end_time = true := by
  have hs1 : u.start_time.getD ex.start_time ≠ "" :=
    isTimeHMS_ne_empty (by simp [jsDateTimeValid, Bool.and_eq_true] at hv1; exact hv1.2)
  have hs2 : u.end_time.getD ex.end_time ≠ "" :=
    isTimeHMS_ne_empty (by simp [jsDateTimeValid, Bool.and_eq_true] at hv2; exact hv2.2)
  have hstep : patchRoute db id body =
      (if hasTimeOverlapEx db (u.hall_id.getD ex.hall_id) (u.date.getD ex.date)
          (u.start_time.getD ex.start_time) (u.end_time.getD ex.end_time) (some id) then
        (.err .conflict, db)
      else (.ok (applyUpdates u ex),
        db.map (fun b => if b.id = id then applyUpdates u b else b))) := by
    simp [patchRoute, htrim, hne, hu, hnemp, hex, hs1, hs2, hv1, hv2, hord]
  rw [hstep]
  by_cases hov : hasTimeOverlapEx db (u.hall_id.getD ex.hall_id) (u.date.getD ex.date)
      (u.start_time.getD ex.start_time) (u.end_time.getD ex.end_time) (some id) = true
  · rw [if_pos hov]
    simp only [true_and, and_true]
    have := (hasTimeOverlapEx_some_iff db (u.hall_id.getD ex.hall_id) (u.date.getD ex.date)
      (u.start_time.getD ex.start_time) (u.end_time.getD ex.end_time) id hne).mp hov
    simp [this]
  · rw [if_neg hov]
    simp only [Bool.not_eq_true] at hov
    constructor
    · rintro ⟨hcontra, -⟩
      simp at hcontra
    · intro hexist
      have : hasTimeOverlapEx db (u.hall_id.getD ex.hall_id) (u.date.getD ex.date)
          (u.start_time.getD ex.start_time) (u.end_time.getD ex.end_time) (some id) = true :=
        (hasTimeOverlapEx_some_iff db _ _ _ _ id hne).mpr hexist
      rw [hov] at this
      cases this

/-- C7 witness: in a table holding the target b1 on hall 1 and another
booking b2 on hall 2 with an overlapping interval on the same date, a patch
changing only the hall of b1 to hall 2 is answered with the conflict error
and the table is unchanged. -/
theorem claim_C7_witness :
    (patchRoute dbTwoHalls "b1" pbodyHallOnly).1 = .err .conflict ∧
    (patchRoute dbTwoHalls "b1" pbodyHallOnly).2 = dbTwoHalls := by
  have h := claim_C7_overlap_on_effective_state dbTwoHalls "b1" pbodyHallOnly
    { hall_id := some (.num 2), date := none, start_time := none, end_time := none,
      requester_name := none, phone := none, group_name := none, description := none }
    rowB1 (by decide) (by decide) (by decide) (by decide) (by decide) (by decide)
    (by decide) (by decide)
  exact h.mpr ⟨sampleBooking "b2" (.num 2) "2025-03-01" "09:30:00" "10:30:00",
    by decide, by decide, by decide, by decide, by decide, by decide⟩

/-- C3 as amended: the delete route always demands a secret. A booking whose
stored hash is absent is never deletable through it — with no secret the
gate answers 403 needing a password, with one it answers 403 because the row
is not password-protected, and the row stays. A booking with a stored hash
is rejected with 403 when the secret is missing, empty, or fails the bcrypt
comparison, and with a matching secret the single-mode delete succeeds and
removes exactly the rows bearing that id. -/
theorem claim_C3_amended (db : List Booking) (id : String) (b : Booking)
    (pw : Option String) (cmp : String → String → Bool)
    (htrim : trimStr id = id) (hne : id ≠ "") (hex : dbSingle db id = some b) :
    (b.edit_password_hash = none →
      ((deleteRoute db id none pw cmp).1 = .err .needPassword ∨
       (deleteRoute db id none pw cmp).1 = .err .notProtected) ∧
      (deleteRoute db id none pw cmp).2 = db) ∧
    (∀ h, b.edit_password_hash = some h →
      ((pw = none ∨ pw = some "") →
        (deleteRoute db id none pw cmp).1 = .err .needPassword ∧
        (deleteRoute db id none pw cmp).2 = db) ∧
      (∀ p, pw = some p → p ≠ "" → cmp p h = false →
        (deleteRoute db id none pw cmp).1 = .err .wrongPassword ∧
        (deleteRoute db id none pw cmp).2 = db) ∧
      (∀ p, pw = some p → p ≠ "" → cmp p h = true →
        (deleteRoute db id none pw cmp).1 = .okSingle ∧
        (deleteRoute db id none pw cmp).2 = db.filter (fun x => decide (x.id ≠ id)))) := by
  constructor
  · intro hnone
    cases pw with
    | none =>
      simp [deleteRoute, verifyBookingPassword, htrim, hne]
    | some p =>
      by_cases hp : p = ""
      · subst hp
        simp [deleteRoute, verifyBookingPassword, htrim, hne]
      · simp [deleteRoute, verifyBookingPassword, htrim, hne, hp, hex, hnone]
  · intro h hsome
    refine ⟨?_, ?_, ?_⟩
    · rintro (rfl | rfl) <;> simp [deleteRoute, verifyBookingPassword, htrim, hne]
    · rintro p rfl hp hcmp
      simp [deleteRoute, verifyBookingPassword, htrim, hne, hp, hex, hsome, hcmp]
    · rintro p rfl hp hcmp
      simp [deleteRoute, verifyBookingPassword, htrim, hne, hp, hex, hsome, hcmp]

/-- C3 witness: with the stored hash of abcd, deleting with the matching
secret succeeds and empties the table, and deleting with a wrong secret is
rejected; the hashless row of dbMarch is covered by the counterexample. -/
theorem claim_C3_witness :
    ((deleteRoute dbHash "b1" none (some "abcd") cmpTest).1 = .okSingle ∧
      (deleteRoute dbHash "b1" none (some "abcd") cmpTest).2
        = dbHash.filter (fun x => decide (x.id ≠ "b1"))) ∧
    ((deleteRoute dbHash "b1" none (some "zzzz") cmpTest).1 = .err .wrongPassword ∧
      (deleteRoute dbHash "b1" none (some "zzzz") cmpTest).2 = dbHash) := by
  have h := claim_C3_amended dbHash "b1"
    ({ sampleBooking "b1" (.num 1) "2025-03-01" "09:00:00" "10:00:00" with
        edit_password_hash := some (testHash "abcd") })
  refine ⟨?_, ?_⟩
  · exact ((h (some "abcd") cmpTest (by decide) (by decide) (by decide)).2
      (testHash "abcd") (by decide)).2.2 "abcd" rfl (by decide) (by decide)
  · exact ((h (some "zzzz") cmpTest (by decide) (by decide) (by decide)).2
      (testHash "abcd") (by decide)).2.1 "zzzz" rfl (by decide) (by decide)

/-- C5 as amended: when the series route reports success, the child-row
count equals the number of expanded dates, the child rows are appended to
the bookings table with dates exactly the expanded dates, each child carries
the parent reference, and the parent row is appended to the series table.
The two inserts are not atomic: as the counterexample shows, a child-insert
failure after the parent insert leaves the parent row persisted with zero
children. -/
theorem claim_C5_amended (st : DbState) (halls : List HallVal) (body : SeriesBody)
    (v : SeriesValidated) (sid sid2 : String) (cnt : Nat) (st2 : DbState)
    (days : List Nat)
    (hv : seriesValidate halls body = .ok v)
    (hdays : days = expandDays v.freq v.untilDay v.occurrences v.startDay)
    (hres : createSeries st halls body false sid = (.ok sid2 cnt, st2)) :
    sid2 = sid ∧ cnt = days.length ∧
    st2.series = st.series ++ [seriesParentRow v days sid] ∧
    st2.bookings = st.bookings ++ seriesChildRows v days sid ∧
    (seriesChildRows v days sid).map Booking.date = days.map fmtDateLocal ∧
    ∀ bk ∈ seriesChildRows v days sid, bk.series_id = some sid ∧ bk.is_series = true := by
  subst hdays
  unfold createSeries at hres
  rw [hv] at hres
  by_cases hemp : (expandDays v.freq v.untilDay v.occurrences v.startDay).isEmpty
  · simp [hemp] at hres
  · simp only [hemp, if_false, Bool.false_eq_true, if_neg, not_false_eq_true] at hres
    simp only [Prod.mk.injEq, SeriesRes.ok.injEq] at hres
    obtain ⟨⟨hsid, hcnt⟩, hst2⟩ := hres
    refine ⟨hsid.symm, ?_, ?_, ?_, ?_, ?_⟩
    · rw [← hcnt]
      simp [seriesChildRows]
    · rw [← hst2]
    · rw [← hst2]
    · simp [seriesChildRows, List.map_map]
    · intro bk hbk
      simp only [seriesChildRows, List.mem_map] at hbk
      obtain ⟨g, hg, rfl⟩ := hbk
      exact ⟨rfl, rfl⟩

/-- C5 witness: the sample series request from an empty store succeeds with
one child row for its one expanded date, carrying the parent reference. -/
theorem claim_C5_witness :
    (1 : Nat) = daysSample.length ∧
    ∀ bk ∈ seriesChildRows sValidSample daysSample "s1",
      bk.series_id = some "s1" ∧ bk.is_series = true := by
  have h := claim_C5_amended ⟨[], []⟩ [.num 1] sbodySample sValidSample "s1" "s1" 1
    st2Sample daysSample rfl rfl rfl
  exact ⟨h.2.1, h.2.2.2.2.2⟩

/-- C10: fields supplied as the empty string (or null) in an update are
stripped from the update set and keep their stored values — a patch whose
supplied fields are all empty is rejected with the no-fields error leaving
the table unchanged, and in any successful patch the returned row and the
stored row keep the old value of every field that was supplied empty, so no
field can be cleared through the update route. -/
theorem claim_C10_empty_fields_kept :
    (∀ (db : List Booking) (id : String) (body : PatchBody),
      trimStr id = id → id ≠ "" → bodyAllEmpty body →
      patchRoute db id body = (.err .noFields, db)) ∧
    (∀ (db : List Booking) (id : String) (body : PatchBody) (u : Updates) (ex r : Booking)
        (db2 : List Booking),
      patchUpdates? body = some u → dbSingle db (trimStr id) = some ex →
      patchRoute db id body = (.ok r, db2) →
      ((body.hall_id = none ∨ body.hall_id = some (.str "")) → r.hall_id = ex.hall_id) ∧
      ((body.date = none ∨ body.date = some "") → r.date = ex.date) ∧
      ((body.start_time = none ∨ body.start_time = some "") → r.start_time = ex.start_time) ∧
      ((body.end_time = none ∨ body.end_time = some "") → r.end_time = ex.end_time) ∧
      ((body.requester_name = none ∨ body.requester_name = some "") →
        r.requester_name = ex.requester_name) ∧
      ((body.phone = none ∨ body.phone = some "") → r.phone = ex.phone) ∧
      ((body.group_name = none ∨ body.group_name = some "") → r.group_name = ex.group_name) ∧
      ((body.description = none ∨ body.description = some "") →
        r.description = ex.description) ∧
      (∀ b ∈ db2, b.id = trimStr id → b = r)) := by
  constructor
  · intro db id body ht hn hempty
    obtain ⟨e1, e2, e3, e4, e5, e6, e7, e8⟩ := hempty
    have hu : patchUpdates? body = some
        { hall_id := none, date := none, start_time := none, end_time := none,
          requester_name := none, phone := none, group_name := none, description := none } := by
      unfold patchUpdates?
      rw [normalizeTimePatch_none e3, normalizeTimePatch_none e4]
      simp [normalizeHallIdPatch_none e1, emptyToUndef_none e2, emptyToUndef_none e5,
        emptyToUndef_none e6, emptyToUndef_none e7, emptyToUndef_none e8]
    simp [patchRoute, ht, hn, hu, Updates.isEmptyU]
  · intro db id body u ex r db2 hu hex hres
    obtain ⟨u', ex', hu', hex', hr, hdb2⟩ := patchRoute_ok_inv hres
    rw [hu] at hu'
    injection hu' with hu'
    subst hu'
    rw [hex] at hex'
    injection hex' with hex'
    subst hex'
    obtain ⟨f1, f2, f3, f4, f5, f6, f7, f8⟩ := patchUpdates_fields hu
    subst hr
    refine ⟨?_, ?_, ?_, ?_, ?_, ?_, ?_, ?_, ?_⟩
    · intro he
      simp [applyUpdates, f1, normalizeHallIdPatch_none he]
    · intro he
      simp [applyUpdates, f2, emptyToUndef_none he]
    · intro he
      have hnt : normalizeTimePatch? body.start_time = some none := normalizeTimePatch_none he
      rw [hnt] at f3
      injection f3 with f3
      simp [applyUpdates, ← f3]
    · intro he
      have hnt : normalizeTimePatch? body.end_time = some none := normalizeTimePatch_none he
      rw [hnt] at f4
      injection f4 with f4
      simp [applyUpdates, ← f4]
    · intro he
      simp [applyUpdates, f5, emptyToUndef_none he]
    · intro he
      simp [applyUpdates, f6, emptyToUndef_none he]
    · intro he
      simp [applyUpdates, f7, emptyToUndef_none he]
    · intro he
      simp [applyUpdates, f8, emptyToUndef_none he]
    · intro b hb hbid
      rw [hdb2] at hb
      obtain ⟨a, ha, rfl⟩ := List.mem_map.mp hb
      by_cases haid : a.id = trimStr id
      · have : a = ex := dbSingle_unique hex a ha haid
        subst this
        simp [haid]
      · simp [haid] at hbid

/-- C10 witness: the all-empty patch is rejected with the no-fields error
leaving the table unchanged, and a patch that changes the date while
supplying the requester name as the empty string keeps the stored requester
name. -/
theorem claim_C10_witness :
    patchRoute dbTwoHalls "b1" pbodyAllEmpty = (.err .noFields, dbTwoHalls) ∧
    rowKeep.requester_name = rowB1.requester_name := by
  refine ⟨claim_C10_empty_fields_kept.1 dbTwoHalls "b1" pbodyAllEmpty (by decide) (by decide)
    (by decide), ?_⟩
  exact (claim_C10_empty_fields_kept.2 dbTwoHalls "b1" pbodyKeep uKeep rowB1 rowKeep
    dbKeepAfter (by decide) (by decide) (by decide)).2.2.2.2.1 (Or.inr rfl)

end HallBook
